import Mathlib

/-!
Verification of `docker-build.py` (bedag/image-build): a shallow embedding of
the configuration model (deep merge), the recursive Jinja-style template
renderer, tag-candidate selection, build variants, and the builder loop,
together with theorems checking the repository's specification against the
embedded code.
-/

set_option maxHeartbeats 1600000

/-- Configuration values as parsed from YAML / passed as Jinja variables:
strings, booleans, nested mappings (Python `dict`, insertion-ordered
association list) and sequences.  Mirrors the dynamically-typed trees that
`Utils.merge_dict` operates on. -/
inductive Val where
  | str : String → Val
  | bool : Bool → Val
  | dict : List (String × Val) → Val
  | list : List Val → Val
deriving Repr

mutual

/-- Decidable equality on configuration values (Python `==` on the values
held in configuration dicts). -/
def Val.decEq : (a b : Val) → Decidable (a = b)
  | .str a, .str b =>
    match String.decEq a b with
    | isTrue h => isTrue (by rw [h])
    | isFalse h => isFalse (by intro hh; injection hh; contradiction)
  | .bool a, .bool b =>
    match Bool.decEq a b with
    | isTrue h => isTrue (by rw [h])
    | isFalse h => isFalse (by intro hh; injection hh; contradiction)
  | .dict a, .dict b =>
    match decEqEntries a b with
    | isTrue h => isTrue (by rw [h])
    | isFalse h => isFalse (by intro hh; injection hh; contradiction)
  | .list a, .list b =>
    match decEqVals a b with
    | isTrue h => isTrue (by rw [h])
    | isFalse h => isFalse (by intro hh; injection hh; contradiction)
  | .str _, .bool _ => isFalse (fun h => Val.noConfusion h)
  | .str _, .dict _ => isFalse (fun h => Val.noConfusion h)
  | .str _, .list _ => isFalse (fun h => Val.noConfusion h)
  | .bool _, .str _ => isFalse (fun h => Val.noConfusion h)
  | .bool _, .dict _ => isFalse (fun h => Val.noConfusion h)
  | .bool _, .list _ => isFalse (fun h => Val.noConfusion h)
  | .dict _, .str _ => isFalse (fun h => Val.noConfusion h)
  | .dict _, .bool _ => isFalse (fun h => Val.noConfusion h)
  | .dict _, .list _ => isFalse (fun h => Val.noConfusion h)
  | .list _, .str _ => isFalse (fun h => Val.noConfusion h)
  | .list _, .bool _ => isFalse (fun h => Val.noConfusion h)
  | .list _, .dict _ => isFalse (fun h => Val.noConfusion h)

/-- Decidable equality on dict entry lists. -/
def decEqEntries : (a b : List (String × Val)) → Decidable (a = b)
  | [], [] => isTrue rfl
  | [], _ :: _ => isFalse (fun h => List.noConfusion h)
  | _ :: _, [] => isFalse (fun h => List.noConfusion h)
  | (k1, v1) :: r1, (k2, v2) :: r2 =>
    match String.decEq k1 k2, Val.decEq v1 v2, decEqEntries r1 r2 with
    | isTrue hk, isTrue hv, isTrue hr => isTrue (by rw [hk, hv, hr])
    | isFalse hk, _, _ =>
      isFalse (by simp only [List.cons.injEq, Prod.mk.injEq]; tauto)
    | _, isFalse hv, _ =>
      isFalse (by simp only [List.cons.injEq, Prod.mk.injEq]; tauto)
    | _, _, isFalse hr =>
      isFalse (by simp only [List.cons.injEq, Prod.mk.injEq]; tauto)

/-- Decidable equality on value lists. -/
def decEqVals : (a b : List Val) → Decidable (a = b)
  | [], [] => isTrue rfl
  | [], _ :: _ => isFalse (fun h => List.noConfusion h)
  | _ :: _, [] => isFalse (fun h => List.noConfusion h)
  | v1 :: r1, v2 :: r2 =>
    match Val.decEq v1 v2, decEqVals r1 r2 with
    | isTrue hv, isTrue hr => isTrue (by rw [hv, hr])
    | isFalse hv, _ => isFalse (by simp only [List.cons.injEq]; tauto)
    | _, isFalse hr => isFalse (by simp only [List.cons.injEq]; tauto)

end

instance : DecidableEq Val := Val.decEq

/-- Python `result[key]` / `key in result` lookup on an insertion-ordered
dict modelled as an association list (first binding wins; dict construction
keeps keys unique, but the model does not depend on that for lookups). -/
def lookupVal (d : List (String × Val)) (k : String) : Option Val :=
  match d.find? (fun p => p.1 == k) with
  | some p => some p.2
  | none => none

/-- Python `result[key] = v` on a dict: if the key is present its binding is
replaced in place (keeping its position), otherwise the binding is appended
at the end (insertion order). -/
def setKey (d : List (String × Val)) (k : String) (v : Val) : List (String × Val) :=
  if d.any (fun p => p.1 == k) then
    d.map (fun p => if p.1 == k then (k, v) else p)
  else
    d ++ [(k, v)]

mutual

/-- Nesting depth of a configuration value (used only as a recursion-depth
budget for the embedding of the recursive deep merge). -/
def Val.depth : Val → Nat
  | .str _ => 1
  | .bool _ => 1
  | .dict d => 1 + entriesDepth d
  | .list l => 1 + valsDepth l

/-- Nesting depth of a dict entry list. -/
def entriesDepth : List (String × Val) → Nat
  | [] => 0
  | (_, v) :: rest => max v.depth (entriesDepth rest)

/-- Nesting depth of a value list. -/
def valsDepth : List Val → Nat
  | [] => 0
  | v :: rest => max v.depth (valsDepth rest)

end

/-- The body of the `Utils.merge_dict` loop for one key `k` of `b` with value
`bv`: if `k` is already present in the accumulating copy, recurse (`f`) when
both values are dicts, keep the copy's value when the values are equal,
otherwise take `b`'s value; a key absent from the copy is appended. -/
def mergeStep (f : List (String × Val) → List (String × Val) → List (String × Val))
    (a : List (String × Val)) (k : String) (bv : Val) : List (String × Val) :=
  match lookupVal a k with
  | some av =>
    match av, bv with
    | Val.dict ad, Val.dict bd => setKey a k (Val.dict (f ad bd))
    | _, _ => if av = bv then a else setKey a k bv
  | none => a ++ [(k, bv)]

/-- One level of `Utils.merge_dict`: the Python loop over the keys of `b`,
updating a shallow copy of `a` (the first argument plays the role of the
accumulating copy), with `f` standing for the recursive call one nesting
level down. -/
def mergeFold (f : List (String × Val) → List (String × Val) → List (String × Val)) :
    List (String × Val) → List (String × Val) → List (String × Val)
  | a, [] => a
  | a, (k, bv) :: rest => mergeFold f (mergeStep f a k bv) rest

/-- `Utils.merge_dict` with explicit recursion depth (the Python recursion
descends one nesting level per recursive call; the `path` argument of the
original is only error bookkeeping and is dropped). -/
def merge_dictF : Nat → List (String × Val) → List (String × Val) → List (String × Val)
  | 0, a, _ => a
  | fuel + 1, a, b => mergeFold (merge_dictF fuel) a b

/-- `Utils.merge_dict(a, b)`: creates a new dict by deep merging `b` into `a`.
`entriesDepth b` bounds the nesting depth of `b`, so the recursion depth
budget is never exhausted (every nested dict of `b` has strictly smaller
depth). -/
def merge_dict (a b : List (String × Val)) : List (String × Val) :=
  merge_dictF (entriesDepth b) a b

example : merge_dict [("a", .str "1")] [("a", .str "2"), ("b", .str "3")] =
    [("a", .str "2"), ("b", .str "3")] := by decide
example : merge_dict [("a", .dict [("x", .str "1"), ("y", .str "2")])]
    [("a", .dict [("y", .str "9")])] =
    [("a", .dict [("x", .str "1"), ("y", .str "9")])] := by decide

theorem lookupVal_cons (k1 : String) (v1 : Val) (d : List (String × Val)) (k : String) :
    lookupVal ((k1, v1) :: d) k = if k1 = k then some v1 else lookupVal d k := by
  simp only [lookupVal, List.find?_cons]
  by_cases h : k1 = k
  · simp [h]
  · have hb : (k1 == k) = false := by simp [h]
    simp [h, hb]

theorem lookupVal_append_ne (d : List (String × Val)) (k1 : String) (v : Val) (k : String)
    (h : k1 ≠ k) : lookupVal (d ++ [(k1, v)]) k = lookupVal d k := by
  induction d with
  | nil => simp [lookupVal_cons, h, lookupVal]
  | cons p rest ih =>
    rcases p with ⟨kp, vp⟩
    rw [List.cons_append, lookupVal_cons, lookupVal_cons, ih]

theorem lookupVal_append_last (d : List (String × Val)) (k : String) (v : Val)
    (h : lookupVal d k = none) : lookupVal (d ++ [(k, v)]) k = some v := by
  induction d with
  | nil => simp [lookupVal_cons, lookupVal]
  | cons p rest ih =>
    rcases p with ⟨kp, vp⟩
    rw [lookupVal_cons] at h
    by_cases hk : kp = k
    · simp [hk] at h
    · rw [List.cons_append, lookupVal_cons, if_neg hk]
      exact ih (by simpa [hk] using h)

theorem lookupVal_eq_none_iff (d : List (String × Val)) (k : String) :
    lookupVal d k = none ↔ k ∉ d.map Prod.fst := by
  induction d with
  | nil => simp [lookupVal]
  | cons p rest ih =>
    rcases p with ⟨kp, vp⟩
    rw [lookupVal_cons]
    by_cases hk : kp = k
    · simp [hk]
    · simp [hk, ih, Ne.symm hk]

theorem anyKey_iff (d : List (String × Val)) (k : String) :
    (d.any (fun p => p.1 == k)) = true ↔ k ∈ d.map Prod.fst := by
  rw [List.any_eq_true]
  constructor
  · rintro ⟨p, hp, he⟩
    exact List.mem_map.mpr ⟨p, hp, by simpa using he⟩
  · intro h
    rcases List.mem_map.mp h with ⟨p, hp, hf⟩
    exact ⟨p, hp, by simp [hf]⟩

theorem lookupVal_map_replace_self (d : List (String × Val)) (k : String) (v : Val)
    (hmem : k ∈ d.map Prod.fst) :
    lookupVal (d.map (fun p => if p.1 == k then (k, v) else p)) k = some v := by
  induction d with
  | nil => simp at hmem
  | cons p rest ih =>
    rcases p with ⟨kp, vp⟩
    rw [List.map_cons]
    by_cases hk : kp = k
    · rw [if_pos (by simp [hk] : ((kp, vp).1 == k) = true), lookupVal_cons, if_pos rfl]
    · rw [if_neg (by simp [hk] : ¬ ((kp, vp).1 == k) = true), lookupVal_cons, if_neg hk]
      apply ih
      rw [List.map_cons] at hmem
      rcases List.mem_cons.mp hmem with h | h
      · exact absurd h.symm hk
      · exact h

theorem lookupVal_setKey_self (d : List (String × Val)) (k : String) (v : Val) :
    lookupVal (setKey d k v) k = some v := by
  unfold setKey
  by_cases h : d.any (fun p => p.1 == k)
  · rw [if_pos h]
    exact lookupVal_map_replace_self d k v ((anyKey_iff d k).mp h)
  · rw [if_neg h]
    apply lookupVal_append_last
    rw [lookupVal_eq_none_iff]
    intro hmem
    exact h ((anyKey_iff d k).mpr hmem)

theorem lookupVal_map_replace_ne (d : List (String × Val)) (k : String) (v : Val)
    (k' : String) (h : k ≠ k') :
    lookupVal (d.map (fun p => if p.1 == k then (k, v) else p)) k' = lookupVal d k' := by
  induction d with
  | nil => rfl
  | cons p rest ih =>
    rcases p with ⟨kp, vp⟩
    rw [List.map_cons]
    by_cases hk : kp = k
    · rw [if_pos (by simp [hk] : ((kp, vp).1 == k) = true), lookupVal_cons, lookupVal_cons,
        if_neg h, if_neg (by rw [hk]; exact h)]
      exact ih
    · rw [if_neg (by simp [hk] : ¬ ((kp, vp).1 == k) = true), lookupVal_cons, lookupVal_cons, ih]

theorem lookupVal_setKey_ne (d : List (String × Val)) (k : String) (v : Val) (k' : String)
    (h : k ≠ k') : lookupVal (setKey d k v) k' = lookupVal d k' := by
  unfold setKey
  by_cases hany : d.any (fun p => p.1 == k)
  · rw [if_pos hany]
    exact lookupVal_map_replace_ne d k v k' h
  · rw [if_neg hany]
    exact lookupVal_append_ne d k v k' h

/-- Shape test used to state the "both values are nested mappings" condition
of the deep merge. -/
def Val.isDict : Val → Bool
  | .dict _ => true
  | _ => false

theorem mem_of_lookupVal (b : List (String × Val)) (k : String) (v : Val)
    (h : lookupVal b k = some v) : (k, v) ∈ b := by
  unfold lookupVal at h
  cases hf : List.find? (fun p => p.1 == k) b with
  | none => rw [hf] at h; cases h
  | some p =>
    rw [hf] at h
    rcases p with ⟨k1, v1⟩
    have hm := List.mem_of_find?_eq_some hf
    have hp : (k1 == k) = true := by simpa using List.find?_some hf
    have hk : k1 = k := by simpa using hp
    have hv : v1 = v := by simpa using h
    rw [← hk, ← hv]
    exact hm

/-- The lookup-level contract of one merge level: how the merged dict resolves
a key, given how `a` and `b` resolve it (`f` is the recursive merge used for
the nested-dict case). -/
def mergeLookupSpec (f : List (String × Val) → List (String × Val) → List (String × Val))
    (oa ob : Option Val) : Option Val :=
  match oa, ob with
  | oa, none => oa
  | none, some bv => some bv
  | some (Val.dict ad), some (Val.dict bd) => some (Val.dict (f ad bd))
  | some _, some bv => some bv

theorem mergeStep_lookup_self (f) (a : List (String × Val)) (k : String) (bv : Val) :
    lookupVal (mergeStep f a k bv) k = mergeLookupSpec f (lookupVal a k) (some bv) := by
  cases ha : lookupVal a k with
  | none =>
    simp only [mergeStep, ha]
    rw [lookupVal_append_last a k bv ha]
    cases bv <;> rfl
  | some av =>
    cases av <;> cases bv <;> simp only [mergeStep, ha, mergeLookupSpec] <;>
      first
        | rw [lookupVal_setKey_self]
        | (split
           · next h => rw [ha, h]
           · rw [lookupVal_setKey_self])

theorem mergeStep_lookup_ne (f) (a : List (String × Val)) (k : String) (bv : Val)
    (k' : String) (h : k ≠ k') :
    lookupVal (mergeStep f a k bv) k' = lookupVal a k' := by
  cases ha : lookupVal a k with
  | none =>
    simp only [mergeStep, ha]
    exact lookupVal_append_ne a k bv k' h
  | some av =>
    cases av <;> cases bv <;> simp only [mergeStep, ha] <;>
      first
        | rw [lookupVal_setKey_ne _ _ _ _ h]
        | (split
           · rfl
           · rw [lookupVal_setKey_ne _ _ _ _ h])

theorem mergeFold_lookup_not_mem (f) (b : List (String × Val)) (k : String)
    (hk : k ∉ b.map Prod.fst) :
    ∀ a, lookupVal (mergeFold f a b) k = lookupVal a k := by
  induction b with
  | nil => intro a; rfl
  | cons p rest ih =>
    rcases p with ⟨k1, bv⟩
    intro a
    rw [List.map_cons] at hk
    have hk1 : k1 ≠ k := fun h => hk (by simp [h])
    have hkrest : k ∉ rest.map Prod.fst := fun h => hk (List.mem_cons_of_mem _ h)
    simp only [mergeFold]
    rw [ih hkrest, mergeStep_lookup_ne f a k1 bv k hk1]

theorem mergeFold_lookup (f) (b : List (String × Val)) (hb : (b.map Prod.fst).Nodup) :
    ∀ a k, lookupVal (mergeFold f a b) k = mergeLookupSpec f (lookupVal a k) (lookupVal b k) := by
  induction b with
  | nil =>
    intro a k
    rw [show mergeFold f a [] = a from rfl]
    cases lookupVal a k with
    | none => rfl
    | some av => cases av <;> rfl
  | cons p rest ih =>
    rcases p with ⟨k1, bv⟩
    intro a k
    rw [List.map_cons, List.nodup_cons] at hb
    obtain ⟨hmem, hrest⟩ := hb
    simp only [mergeFold]
    by_cases hkk : k = k1
    · subst hkk
      rw [mergeFold_lookup_not_mem f rest k hmem, lookupVal_cons, if_pos rfl]
      exact mergeStep_lookup_self f a k bv
    · rw [ih hrest, mergeStep_lookup_ne f a k1 bv k (Ne.symm hkk), lookupVal_cons,
        if_neg (Ne.symm hkk)]

theorem Val.depth_pos (v : Val) : 1 ≤ v.depth := by
  cases v <;> simp [Val.depth]

theorem depth_le_of_mem (b : List (String × Val)) (k : String) (v : Val)
    (h : (k, v) ∈ b) : v.depth ≤ entriesDepth b := by
  induction b with
  | nil => cases h
  | cons p rest ih =>
    rcases List.mem_cons.mp h with h1 | h1
    · rcases p with ⟨k1, v1⟩
      cases h1
      simp only [entriesDepth]
      exact le_max_left _ _
    · rcases p with ⟨k1, v1⟩
      simp only [entriesDepth]
      exact le_trans (ih h1) (le_max_right _ _)

theorem mergeFold_congr (f g : List (String × Val) → List (String × Val) → List (String × Val))
    (b : List (String × Val))
    (hfg : ∀ k bd, (k, Val.dict bd) ∈ b → ∀ x, f x bd = g x bd) :
    ∀ a, mergeFold f a b = mergeFold g a b := by
  induction b with
  | nil => intro a; rfl
  | cons p rest ih =>
    rcases p with ⟨k1, bv⟩
    intro a
    simp only [mergeFold]
    have hstep : mergeStep f a k1 bv = mergeStep g a k1 bv := by
      cases ha : lookupVal a k1 with
      | none => simp only [mergeStep, ha]
      | some av =>
        cases av <;> cases bv <;> simp only [mergeStep, ha]
        all_goals try rfl
        rw [hfg k1 _ (List.mem_cons_self _ _) _]
    rw [hstep]
    exact ih (fun k bd hm x => hfg k bd (List.mem_cons_of_mem _ hm) x) _

theorem merge_dictF_congr : ∀ (f1 f2 : Nat) (a b : List (String × Val)),
    entriesDepth b ≤ f1 → entriesDepth b ≤ f2 →
    merge_dictF f1 a b = merge_dictF f2 a b := by
  intro f1
  induction f1 with
  | zero =>
    intro f2 a b h1 h2
    cases b with
    | nil => cases f2 <;> rfl
    | cons p rest =>
      exfalso
      rcases p with ⟨k1, v1⟩
      have := Val.depth_pos v1
      simp only [entriesDepth] at h1
      omega
  | succ n ih =>
    intro f2 a b h1 h2
    cases f2 with
    | zero =>
      cases b with
      | nil => rfl
      | cons p rest =>
        exfalso
        rcases p with ⟨k1, v1⟩
        have := Val.depth_pos v1
        simp only [entriesDepth] at h2
        omega
    | succ m =>
      simp only [merge_dictF]
      apply mergeFold_congr
      intro k bd hm x
      have hd := depth_le_of_mem b k (Val.dict bd) hm
      simp only [Val.depth] at hd
      exact ih m x bd (by omega) (by omega)

theorem merge_dictF_eq_merge_dict (fuel : Nat) (a b : List (String × Val))
    (h : entriesDepth b ≤ fuel) : merge_dictF fuel a b = merge_dict a b :=
  merge_dictF_congr fuel (entriesDepth b) a b h le_rfl

theorem merge_dict_lookup (a b : List (String × Val)) (hb : (b.map Prod.fst).Nodup)
    (k : String) :
    lookupVal (merge_dict a b) k = mergeLookupSpec merge_dict (lookupVal a k) (lookupVal b k) := by
  unfold merge_dict
  cases hd : entriesDepth b with
  | zero =>
    cases b with
    | nil =>
      rw [show merge_dictF 0 a [] = a from rfl]
      cases lookupVal a k with
      | none => rfl
      | some av => cases av <;> rfl
    | cons p rest =>
      exfalso
      rcases p with ⟨k1, v1⟩
      have := Val.depth_pos v1
      simp only [entriesDepth] at hd
      omega
  | succ n =>
    simp only [merge_dictF]
    rw [mergeFold_lookup (merge_dictF n) b hb a k]
    cases hbk : lookupVal b k with
    | none =>
      cases ha : lookupVal a k with
      | none => rfl
      | some av => cases av <;> rfl
    | some bv =>
      cases ha : lookupVal a k with
      | none => cases bv <;> rfl
      | some av =>
        cases av <;> cases bv <;> try rfl
        case dict.dict ad bd =>
          simp only [mergeLookupSpec]
          have hm := mem_of_lookupVal b k _ hbk
          have hdle := depth_le_of_mem b k _ hm
          simp only [Val.depth] at hdle
          rw [merge_dictF_eq_merge_dict n ad bd (by omega)]
          rfl

theorem mergeFold_eq_append_of_disjoint (f) :
    ∀ (b a : List (String × Val)), (b.map Prod.fst).Nodup →
    (∀ k, k ∈ b.map Prod.fst → k ∉ a.map Prod.fst) →
    mergeFold f a b = a ++ b := by
  intro b
  induction b with
  | nil => intro a _ _; simp [mergeFold]
  | cons p rest ih =>
    rcases p with ⟨k1, bv⟩
    intro a hnodup hdisj
    rw [List.map_cons, List.nodup_cons] at hnodup
    obtain ⟨hmem, hrest⟩ := hnodup
    have ha : lookupVal a k1 = none := by
      rw [lookupVal_eq_none_iff]
      exact hdisj k1 (by simp)
    simp only [mergeFold, mergeStep, ha]
    rw [ih (a ++ [(k1, bv)]) hrest ?_]
    · simp
    · intro k hk
      rw [List.map_append]
      intro hka
      rcases List.mem_append.mp hka with h1 | h1
      · exact hdisj k (by simp [hk]) h1
      · simp at h1
        rw [h1] at hk
        exact hmem hk

/-- C2 helper: `merge_dict [] b = b` for key-duplicate-free `b`. -/
theorem merge_dict_nil_left (b : List (String × Val)) (hb : (b.map Prod.fst).Nodup) :
    merge_dict [] b = b := by
  unfold merge_dict
  cases hd : entriesDepth b with
  | zero =>
    cases b with
    | nil => rfl
    | cons p rest =>
      exfalso
      rcases p with ⟨k1, v1⟩
      have := Val.depth_pos v1
      simp only [entriesDepth] at hd
      omega
  | succ n =>
    simp only [merge_dictF]
    rw [mergeFold_eq_append_of_disjoint _ b [] hb (by simp)]
    simp

/-- C2: for all configuration trees `a` and `b` (with duplicate-free keys in
`b`, as Python dicts guarantee), `merge_dict a b` resolves every key as
follows: a key present only in `a` keeps `a`'s value, a key present only in
`b` gets `b`'s value, a key whose values are nested mappings in both is
merged recursively, and any other key present in both resolves to `b`'s
value (even across value shapes); moreover `merge_dict a [] = a` and
`merge_dict [] b = b`.  (The embedding is a pure function, so neither
argument is mutated.) -/
theorem merge_dict_spec_claim (a b : List (String × Val))
    (hb : (b.map Prod.fst).Nodup) :
    (∀ k, k ∉ b.map Prod.fst → lookupVal (merge_dict a b) k = lookupVal a k) ∧
    (∀ k, k ∉ a.map Prod.fst → lookupVal (merge_dict a b) k = lookupVal b k) ∧
    (∀ k ad bd, lookupVal a k = some (Val.dict ad) → lookupVal b k = some (Val.dict bd) →
      lookupVal (merge_dict a b) k = some (Val.dict (merge_dict ad bd))) ∧
    (∀ k av bv, lookupVal a k = some av → lookupVal b k = some bv →
      (av.isDict = false ∨ bv.isDict = false) → lookupVal (merge_dict a b) k = some bv) ∧
    merge_dict a [] = a ∧ merge_dict [] b = b := by
  refine ⟨?_, ?_, ?_, ?_, rfl, merge_dict_nil_left b hb⟩
  · intro k hk
    rw [merge_dict_lookup a b hb k, (lookupVal_eq_none_iff b k).mpr hk]
    cases lookupVal a k with
    | none => rfl
    | some av => cases av <;> rfl
  · intro k hk
    rw [merge_dict_lookup a b hb k, (lookupVal_eq_none_iff a k).mpr hk]
    cases lookupVal b k with
    | none => rfl
    | some bv => cases bv <;> rfl
  · intro k ad bd hak hbk
    rw [merge_dict_lookup a b hb k, hak, hbk]
    rfl
  · intro k av bv hak hbk hnd
    rw [merge_dict_lookup a b hb k, hak, hbk]
    cases av <;> cases bv <;> try rfl
    simp [Val.isDict] at hnd

/-- Concrete left tree for the C2 witness. -/
def mergeWitA : List (String × Val) :=
  [("x", Val.str "1"), ("n", Val.dict [("a", Val.str "1")])]

/-- Concrete right tree for the C2 witness. -/
def mergeWitB : List (String × Val) :=
  [("n", Val.dict [("b", Val.str "2")]), ("y", Val.str "3")]

/-- Witness for C2 at concrete trees. -/
theorem merge_dict_spec_claim_witness :
    ((mergeWitB.map Prod.fst).Nodup) ∧
    ((∀ k, k ∉ mergeWitB.map Prod.fst →
        lookupVal (merge_dict mergeWitA mergeWitB) k = lookupVal mergeWitA k) ∧
     (∀ k, k ∉ mergeWitA.map Prod.fst →
        lookupVal (merge_dict mergeWitA mergeWitB) k = lookupVal mergeWitB k) ∧
     (∀ k ad bd, lookupVal mergeWitA k = some (Val.dict ad) →
        lookupVal mergeWitB k = some (Val.dict bd) →
        lookupVal (merge_dict mergeWitA mergeWitB) k = some (Val.dict (merge_dict ad bd))) ∧
     (∀ k av bv, lookupVal mergeWitA k = some av → lookupVal mergeWitB k = some bv →
        (av.isDict = false ∨ bv.isDict = false) →
        lookupVal (merge_dict mergeWitA mergeWitB) k = some bv) ∧
     merge_dict mergeWitA [] = mergeWitA ∧ merge_dict [] mergeWitB = mergeWitB) :=
  ⟨by decide, merge_dict_spec_claim mergeWitA mergeWitB (by decide)⟩

/-- One node of a parsed Jinja template: literal text, or a variable
reference `\x7b\x7b name \x7d\x7d` (a dotted name stands for Jinja attribute
access such as `_source.tag`). -/
inductive Item where
  | lit : String → Item
  | var : String → Item
deriving DecidableEq, Repr

/-- A parsed template: the Jinja AST restricted to the constructs this
program's templates use (literal text and variable substitution). -/
abbrev Tmpl := List Item

/-- Characters allowed in a (possibly dotted) variable reference. -/
def identChar (c : Char) : Bool :=
  c.isAlphanum || c == '_' || c == '.'

/-- Parse a variable reference after an opening `\x7b\x7b`: optional spaces,
a nonempty name, optional spaces, then `\x7d\x7d`. -/
def parseVarRef (cs : List Char) : Option (String × List Char) :=
  let cs1 := cs.dropWhile (· == ' ')
  let name := cs1.takeWhile identChar
  let cs2 := (cs1.dropWhile identChar).dropWhile (· == ' ')
  match cs2 with
  | '}' :: '}' :: rest => if name.isEmpty then none else some (String.mk name, rest)
  | _ => none

/-- Prepend a literal character to a parsed template, merging adjacent
literal text. -/
def consLit (c : Char) : Tmpl → Tmpl
  | Item.lit s :: t => Item.lit (String.mk (c :: s.toList)) :: t
  | t => Item.lit (String.mk [c]) :: t

/-- Template parser (`Environment.parse` / `Template(...)` compilation,
restricted to the variable-substitution syntax): a fuel-bounded scan over
the characters; the fuel is an upper bound on the number of consumed
characters and `parseTmpl` always supplies enough.  `none` models a Jinja
`TemplateSyntaxError`. -/
def parseChars : Nat → List Char → Option Tmpl
  | _, [] => some []
  | 0, _ :: _ => none
  | fuel + 1, '{' :: '{' :: rest =>
    match parseVarRef rest with
    | none => none
    | some (x, rest2) =>
      match parseChars fuel rest2 with
      | none => none
      | some t => some (Item.var x :: t)
  | fuel + 1, c :: rest =>
    match parseChars fuel rest with
    | none => none
    | some t => some (consLit c t)

/-- Parse a template source string. -/
def parseTmpl (s : String) : Option Tmpl :=
  parseChars s.length s.toList

/-- Split a dotted variable reference into its attribute path. -/
def splitDotsAux : List Char → List Char → List String
  | acc, [] => [String.mk acc.reverse]
  | acc, '.' :: rest => String.mk acc.reverse :: splitDotsAux [] rest
  | acc, c :: rest => splitDotsAux (c :: acc) rest

/-- Split a dotted variable reference into its attribute path. -/
def splitPath (s : String) : List String :=
  splitDotsAux [] s.toList

/-- Resolve a dotted variable reference against the variable dict (Jinja
name lookup followed by attribute accesses on nested dicts); `none` is an
undefined reference. -/
def getPath (vars : List (String × Val)) : List String → Option Val
  | [] => none
  | [k] => lookupVal vars k
  | k :: rest =>
    match lookupVal vars k with
    | some (Val.dict d) => getPath d rest
    | _ => none

/-- How a defined value is stringified when substituted into rendered
output: strings verbatim, booleans as Python booleans.  The Python repr of
dicts and lists is not reproduced by the model (no template in the claims
substitutes a whole dict or list). -/
def Val.display : Val → String
  | .str s => s
  | .bool b => if b then "True" else "False"
  | .dict _ => "dict"
  | .list _ => "list"

/-- Strict rendering (an environment with `undefined=StrictUndefined`):
substituting an undefined variable raises `UndefinedError`, modelled as an
error naming the leftmost undefined reference. -/
def renderStrict : Tmpl → List (String × Val) → Except String String
  | [], _ => .ok ""
  | Item.lit s :: rest, vars =>
    match renderStrict rest vars with
    | .ok out => .ok (s ++ out)
    | .error e => .error e
  | Item.var x :: rest, vars =>
    match getPath vars (splitPath x) with
    | none => .error ("undefined variable " ++ x)
    | some v =>
      match renderStrict rest vars with
      | .ok out => .ok (v.display ++ out)
      | .error e => .error e

/-- Lenient rendering (jinja2's default `Undefined`, the environment of a
bare `jinja2.Template(...)` as built in `TagCandidate.render`): an undefined
variable stringifies as the empty string. -/
def renderLenient : Tmpl → List (String × Val) → String
  | [], _ => ""
  | Item.lit s :: rest, vars => s ++ renderLenient rest vars
  | Item.var x :: rest, vars =>
    (match getPath vars (splitPath x) with
     | none => ""
     | some v => v.display) ++ renderLenient rest vars

/-- `jinja2.meta.find_undeclared_variables(ast)` is non-empty exactly when
the parsed output still contains a variable reference. -/
def hasVarItem (t : Tmpl) : Bool :=
  t.any fun i =>
    match i with
    | Item.var _ => true
    | Item.lit _ => false

/-- The recursive part of `Utils.render_template`: `data` is the output of
the previous rendering pass.  Parse it; if the parse still contains variable
references, re-render it with the strict environment created inside
`render_template` and recurse on the new output.  The recursion of the
original is unbounded, so the embedding counts passes with `fuel`: `none`
means the computation is still recursing after `fuel` passes (for every
fuel), i.e. the original never returns by itself. -/
def rerenderLoop (vars : List (String × Val)) : Nat → String → Option (Except String String)
  | 0, _ => none
  | fuel + 1, data =>
    match parseTmpl data with
    | none => some (.error "template syntax error")
    | some ast =>
      if hasVarItem ast then
        match renderStrict ast vars with
        | .error e => some (.error e)
        | .ok data2 => rerenderLoop vars fuel data2
      else some (.ok data)

/-- `Utils.render_template(template, variables)`: the first pass renders the
template object with the environment it was built with — `strictFirst = true`
for templates compiled by a `StrictUndefined` environment (the variant
Dockerfile templates loaded through `Environment(loader=...,
undefined=StrictUndefined)` and the `from_string` templates of later
passes), `strictFirst = false` for the bare `jinja2.Template(...)` objects
built in `TagCandidate.render`, whose default environment substitutes the
empty string for an undefined variable.  Afterwards the output is parsed
and, while it still contains variable references, re-rendered with the
`StrictUndefined` environment created inside `render_template`. -/
def render_template (strictFirst : Bool) (t : Tmpl) (vars : List (String × Val))
    (fuel : Nat) : Option (Except String String) :=
  match (if strictFirst then renderStrict t vars else .ok (renderLenient t vars)) with
  | .error e => some (.error e)
  | .ok data => rerenderLoop vars fuel data

/-- A destination-tag candidate (`TagCandidate.__init__`): a tag template
string plus its applicability rule. -/
structure TagCandidate where
  template : String
  selectors : List String
  only_primary : Bool
  negate : Bool
deriving DecidableEq, Repr

/-- The selector loop of `TagCandidate.selected`: the first selector whose
regex search succeeds decides `not negate`; if none matches, the result is
`negate`.  `search sel s` stands for `re.search(sel, s)` succeeding (the
regex engine is an external collaborator and is kept abstract). -/
def selectorsLoop (search : String → String → Bool) (negate : Bool) (s : String) :
    List String → Bool
  | [] => negate
  | sel :: rest => if search sel s then !negate else selectorsLoop search negate s rest

/-- `TagCandidate.selected(select, primary)`. -/
def TagCandidate.selected (search : String → String → Bool) (c : TagCandidate)
    (select : Option String) (primary : Bool) : Bool :=
  if primary || (primary == c.only_primary) then
    match select with
    | some s =>
      if !s.isEmpty && !c.selectors.isEmpty then
        selectorsLoop search c.negate s c.selectors
      else !c.negate
    | none => !c.negate
  else false

/-- `TagCandidate.render(variables)`: builds a bare `jinja2.Template` from
the template string (default environment: parse strictly, render leniently)
and hands it to `Utils.render_template`. -/
def TagCandidate.render (c : TagCandidate) (vars : List (String × Val)) (fuel : Nat) :
    Option (Except String String) :=
  match parseTmpl c.template with
  | none => some (.error "template syntax error")
  | some t => render_template false t vars fuel

example : parseTmpl "foo-\x7b\x7b bar \x7d\x7d" = some [Item.lit "foo-", Item.var "bar"] := by
  decide
example : parseTmpl "\x7b\x7b x \x7d\x7d" = some [Item.var "x"] := by decide
example : parseTmpl "latest" = some [Item.lit "latest"] := by decide
example : renderLenient [Item.lit "foo-", Item.var "bar"] [] = "foo-" := by decide
example : renderStrict [Item.var "x"] [("x", Val.str "v1")] = .ok "v1" := rfl

/-- The spec-side selection rule, following the spec's words: `eligible =
is_primary OR (is_primary == only_primary)`; an ineligible candidate is never
selected; an eligible candidate with a non-empty `select_filter` and selector
patterns yields (some selector regex search succeeds) XOR negate; otherwise
it yields NOT negate. -/
def selectedSpec (search : String → String → Bool) (c : TagCandidate)
    (select : Option String) (primary : Bool) : Bool :=
  let eligible := primary || (primary == c.only_primary)
  if eligible then
    match select with
    | some s =>
      if !s.isEmpty && !c.selectors.isEmpty then
        Bool.xor (c.selectors.any (fun sel => search sel s)) c.negate
      else !c.negate
    | none => !c.negate
  else false

theorem selectorsLoop_eq_any (search : String → String → Bool) (negate : Bool)
    (s : String) (sels : List String) :
    selectorsLoop search negate s sels = Bool.xor (sels.any (fun sel => search sel s)) negate := by
  induction sels with
  | nil => simp [selectorsLoop]
  | cons sel rest ih =>
    simp only [selectorsLoop, List.any_cons]
    by_cases h : search sel s
    · simp [h]
    · simp [h, ih]

/-- C1: `TagCandidate.selected` computes exactly the spec's formula — it is
false whenever the candidate is ineligible (eligible = is_primary OR
is_primary == only_primary); if eligible with a non-empty select filter and
selector patterns, the result is (some selector regex search succeeds) XOR
negate; if eligible otherwise, the result is NOT negate — and in particular
a candidate with `only_primary = true` is never selected for a non-primary
source tag, regardless of its selectors. -/
theorem TagCandidate.selected_spec :
    (∀ (search : String → String → Bool) (c : TagCandidate) (select : Option String)
       (primary : Bool),
       c.selected search select primary = selectedSpec search c select primary) ∧
    (∀ (search : String → String → Bool) (tmpl : String) (sels : List String) (neg : Bool)
       (select : Option String),
       (TagCandidate.mk tmpl sels true neg).selected search select false = false) := by
  constructor
  · intro search c select primary
    unfold TagCandidate.selected selectedSpec
    by_cases h : (primary || (primary == c.only_primary)) = true
    · rw [if_pos h, if_pos h]
      cases select with
      | none => rfl
      | some s =>
        dsimp only
        by_cases hs : (!s.isEmpty && !c.selectors.isEmpty) = true
        · rw [if_pos hs, if_pos hs, selectorsLoop_eq_any]
        · rw [if_neg hs, if_neg hs]
    · rw [if_neg h, if_neg h]
  · intro search tmpl sels neg select
    rfl

example : (TagCandidate.mk "t" [] false false).selected (fun _ _ => false)
    (some "anything") true = true := by decide
example : (TagCandidate.mk "t" ["^v"] false false).selected
    (fun sel s => sel == "^v" && s == "v1.2") (some "v1.2") false = true := by decide
example : (TagCandidate.mk "t" ["^v"] false false).selected
    (fun sel s => sel == "^v" && s == "v1.2") (some "beta") false = false := by decide
example : (TagCandidate.mk "t" ["^v"] true false).selected
    (fun _ _ => true) (some "v1") false = false := by decide
example : (TagCandidate.mk "t" ["^v"] false true).selected
    (fun sel s => sel == "^v" && (s == "v1" || s == "v1.2")) (some "v1") false = false := by
  decide
example : (TagCandidate.mk "t" ["^v"] false true).selected
    (fun sel s => sel == "^v" && (s == "v1" || s == "v1.2")) (some "xyz") false = true := by
  decide

/-- The tag candidate of the C3 counterexample: its template references a
variable `bar` that the variable set does not define. -/
def tagWithMissingVar : TagCandidate :=
  { template := "foo-\x7b\x7b bar \x7d\x7d", selectors := [], only_primary := false,
    negate := false }

/-- C3 counterexample: `TagCandidate.render` builds its template with the
bare `jinja2.Template(...)` constructor, whose default environment replaces
an undefined variable by the empty string, and the first-pass output
`"foo-"` contains no template syntax, so the re-render loop returns it
unchanged: rendering a tag template with a missing variable silently
produces output with the reference dropped instead of failing. -/
theorem tag_render_missing_var_counterexample :
    parseTmpl tagWithMissingVar.template = some [Item.lit "foo-", Item.var "bar"] ∧
    lookupVal [] "bar" = none ∧
    TagCandidate.render tagWithMissingVar [] 5 = some (Except.ok "foo-") :=
  ⟨rfl, rfl, rfl⟩

/-- C3 amended: templates compiled in a `StrictUndefined` environment (the
variant Dockerfile templates, and every re-render pass of
`Utils.render_template`) do fail on an undefined variable reference: if the
template references a variable the variable set does not resolve, strict
rendering returns an error for any recursion budget. -/
theorem render_template_strict_missing (t : Tmpl) (vars : List (String × Val))
    (fuel : Nat) (x : String) (hmem : Item.var x ∈ t)
    (hnone : getPath vars (splitPath x) = none) :
    ∃ e, render_template true t vars fuel = some (Except.error e) := by
  obtain ⟨e, he⟩ : ∃ e, renderStrict t vars = .error e := by
    induction t with
    | nil => cases hmem
    | cons i rest ih =>
      cases i with
      | lit s =>
        rcases List.mem_cons.mp hmem with h | h
        · cases h
        · obtain ⟨e, he⟩ := ih h
          exact ⟨e, by simp only [renderStrict, he]⟩
      | var y =>
        cases hy : getPath vars (splitPath y) with
        | none => exact ⟨"undefined variable " ++ y, by simp only [renderStrict, hy]⟩
        | some v =>
          rcases List.mem_cons.mp hmem with h | h
          · injection h with hxy
            rw [hxy] at hnone
            rw [hnone] at hy
            cases hy
          · obtain ⟨e, he⟩ := ih h
            exact ⟨e, by simp only [renderStrict, hy, he]⟩
  exact ⟨e, by simp only [render_template, if_pos, he]⟩

/-- Witness for the C3 amended theorem at a concrete template. -/
theorem render_template_strict_missing_witness :
    (Item.var "bar" ∈ ([Item.lit "foo-", Item.var "bar"] : Tmpl)) ∧
    (getPath [] (splitPath "bar") = none) ∧
    ∃ e, render_template true [Item.lit "foo-", Item.var "bar"] [] 5 = some (Except.error e) :=
  ⟨by decide, rfl,
   render_template_strict_missing [Item.lit "foo-", Item.var "bar"] [] 5 "bar" (by decide) rfl⟩

/-- The self-referential template of the C4 counterexample. -/
def selfRefTmpl : Tmpl := [Item.var "x"]

/-- A variable whose value expands to a template expression referencing
itself. -/
def selfRefVars : List (String × Val) := [("x", Val.str "\x7b\x7b x \x7d\x7d")]

theorem rerender_selfref (fuel : Nat) :
    rerenderLoop selfRefVars fuel "\x7b\x7b x \x7d\x7d" = none := by
  induction fuel with
  | zero => rfl
  | succ n ih => exact ih

/-- C4 counterexample: on the self-referential input `x ↦ "\x7b\x7b x
\x7d\x7d"`, every rendering pass reproduces the same output containing the
same variable reference, so the re-render recursion never reaches its base
case: no recursion budget suffices, i.e. the loop of `render_template` does
not terminate on this input (the Python original recurses unboundedly and is
stopped only by the interpreter's recursion limit). -/
theorem render_template_nonterm_counterexample :
    ¬ ∃ fuel r, render_template false selfRefTmpl selfRefVars fuel = some r := by
  rintro ⟨fuel, r, h⟩
  rw [show render_template false selfRefTmpl selfRefVars fuel =
      rerenderLoop selfRefVars fuel "\x7b\x7b x \x7d\x7d" from rfl, rerender_selfref fuel] at h
  cases h

/-- C4 amended: a template whose first-pass output parses to pure literal
text (no template syntax) is returned after exactly one pass, for any
positive recursion budget; the general loop, however, is unbounded (see the
counterexample). -/
theorem render_template_one_pass (strictFirst : Bool) (t : Tmpl)
    (vars : List (String × Val)) (fuel : Nat) (data : String) (ast : Tmpl)
    (h1 : (if strictFirst then renderStrict t vars else .ok (renderLenient t vars)) = .ok data)
    (h2 : parseTmpl data = some ast) (h3 : hasVarItem ast = false) :
    render_template strictFirst t vars (fuel + 1) = some (Except.ok data) := by
  simp only [render_template, h1, rerenderLoop, h2, h3]
  rfl

/-- Witness for the C4 amended theorem at a concrete static template. -/
theorem render_template_one_pass_witness :
    ((if true then renderStrict [Item.lit "hello"] [] else .ok (renderLenient [Item.lit "hello"] []))
        = .ok "hello") ∧
    (parseTmpl "hello" = some [Item.lit "hello"]) ∧
    (hasVarItem [Item.lit "hello"] = false) ∧
    render_template true [Item.lit "hello"] [] 1 = some (Except.ok "hello") :=
  ⟨rfl, rfl, rfl,
   render_template_one_pass true [Item.lit "hello"] [] 0 "hello" [Item.lit "hello"] rfl rfl rfl⟩


/-- Membership form of the Python `key in dict` test used by dict updates. -/
theorem anyFst_iff {α : Type} (d : List (String × α)) (k : String) :
    (d.any (fun p => p.1 == k)) = true ↔ k ∈ d.map Prod.fst := by
  rw [List.any_eq_true]
  constructor
  · rintro ⟨p, hp, he⟩
    exact List.mem_map.mpr ⟨p, hp, by simpa using he⟩
  · intro h
    rcases List.mem_map.mp h with ⟨p, hp, hf⟩
    exact ⟨p, hp, by simp [hf]⟩

/-- The Python dict assignment `self.tags[tag['template']] = TagCandidate(**tag)`
of `BuildVariant.__init__`: an existing key keeps its insertion position and
gets the new candidate; a new key is appended at the end. -/
def insertTagCandidate (m : List (String × TagCandidate)) (c : TagCandidate) :
    List (String × TagCandidate) :=
  if m.any (fun p => p.1 == c.template) then
    m.map (fun p => if p.1 == c.template then (p.1, c) else p)
  else
    m ++ [(c.template, c)]

/-- The tag map of a Build Variant: `self.tags = \x7b\x7d` followed by the
assignment loop over the given candidate definitions in order. -/
def tagMapOf (cands : List TagCandidate) : List (String × TagCandidate) :=
  cands.foldl insertTagCandidate []

/-- The tag-map construction of `BuildVariant.__init__` (lines 183-185): the
loop runs over `tags + config['tags']`, i.e. build-level candidates followed
by variant-config candidates. -/
def variantTags (buildLevel configLevel : List TagCandidate) : List (String × TagCandidate) :=
  tagMapOf (buildLevel ++ configLevel)

/-- Candidate lookup in the tag map (Python `self.tags[tag]`). -/
def lookupTag (m : List (String × TagCandidate)) (k : String) : Option TagCandidate :=
  match m.find? (fun p => p.1 == k) with
  | some p => some p.2
  | none => none

theorem lookupTag_cons (k1 : String) (c1 : TagCandidate) (m : List (String × TagCandidate))
    (k : String) :
    lookupTag ((k1, c1) :: m) k = if k1 = k then some c1 else lookupTag m k := by
  simp only [lookupTag, List.find?_cons]
  by_cases h : k1 = k
  · simp [h]
  · have hb : (k1 == k) = false := by simp [h]
    simp [h, hb]

theorem lookupTag_map_assign_self (m : List (String × TagCandidate)) (c : TagCandidate)
    (hmem : c.template ∈ m.map Prod.fst) :
    lookupTag (m.map (fun p => if p.1 == c.template then (p.1, c) else p)) c.template =
      some c := by
  induction m with
  | nil => simp at hmem
  | cons p rest ih =>
    rcases p with ⟨kp, cp⟩
    rw [List.map_cons]
    by_cases hk : kp = c.template
    · rw [if_pos (by simp [hk] : ((kp, cp).1 == c.template) = true)]
      rw [lookupTag_cons, if_pos hk]
    · rw [if_neg (by simp [hk] : ¬ ((kp, cp).1 == c.template) = true)]
      rw [lookupTag_cons, if_neg hk]
      apply ih
      rw [List.map_cons] at hmem
      rcases List.mem_cons.mp hmem with h1 | h1
      · exact absurd h1.symm hk
      · exact h1

theorem lookupTag_map_assign_ne (m : List (String × TagCandidate)) (c : TagCandidate)
    (k : String) (h : c.template ≠ k) :
    lookupTag (m.map (fun p => if p.1 == c.template then (p.1, c) else p)) k =
      lookupTag m k := by
  induction m with
  | nil => rfl
  | cons p rest ih =>
    rcases p with ⟨kp, cp⟩
    rw [List.map_cons]
    by_cases hk : kp = c.template
    · rw [if_pos (by simp [hk] : ((kp, cp).1 == c.template) = true)]
      have hkpk : kp ≠ k := by rw [hk]; exact h
      rw [lookupTag_cons, lookupTag_cons, if_neg hkpk, if_neg hkpk, ih]
    · rw [if_neg (by simp [hk] : ¬ ((kp, cp).1 == c.template) = true)]
      rw [lookupTag_cons, lookupTag_cons, ih]

theorem lookupTag_append_last (m : List (String × TagCandidate)) (k : String)
    (c : TagCandidate) (h : lookupTag m k = none) :
    lookupTag (m ++ [(k, c)]) k = some c := by
  induction m with
  | nil => simp [lookupTag_cons]
  | cons p rest ih =>
    rcases p with ⟨kp, cp⟩
    rw [lookupTag_cons] at h
    by_cases hk : kp = k
    · simp [hk] at h
    · rw [List.cons_append, lookupTag_cons, if_neg hk]
      exact ih (by simpa [hk] using h)

theorem lookupTag_append_ne (m : List (String × TagCandidate)) (k1 : String)
    (c : TagCandidate) (k : String) (h : k1 ≠ k) :
    lookupTag (m ++ [(k1, c)]) k = lookupTag m k := by
  induction m with
  | nil => simp [lookupTag_cons, h, lookupTag]
  | cons p rest ih =>
    rcases p with ⟨kp, cp⟩
    rw [List.cons_append, lookupTag_cons, lookupTag_cons, ih]

theorem lookupTag_eq_none_iff (m : List (String × TagCandidate)) (k : String) :
    lookupTag m k = none ↔ k ∉ m.map Prod.fst := by
  induction m with
  | nil => simp [lookupTag]
  | cons p rest ih =>
    rcases p with ⟨kp, cp⟩
    rw [lookupTag_cons]
    by_cases hk : kp = k
    · simp [hk]
    · simp [hk, ih, Ne.symm hk]

theorem lookupTag_insert_self (m : List (String × TagCandidate)) (c : TagCandidate) :
    lookupTag (insertTagCandidate m c) c.template = some c := by
  unfold insertTagCandidate
  by_cases h : m.any (fun p => p.1 == c.template)
  · rw [if_pos h]
    exact lookupTag_map_assign_self m c ((anyFst_iff m c.template).mp h)
  · rw [if_neg h]
    apply lookupTag_append_last
    rw [lookupTag_eq_none_iff]
    intro hmem
    exact h ((anyFst_iff m c.template).mpr hmem)

theorem lookupTag_insert_ne (m : List (String × TagCandidate)) (c : TagCandidate)
    (k : String) (h : c.template ≠ k) :
    lookupTag (insertTagCandidate m c) k = lookupTag m k := by
  unfold insertTagCandidate
  by_cases hany : m.any (fun p => p.1 == c.template)
  · rw [if_pos hany]
    exact lookupTag_map_assign_ne m c k h
  · rw [if_neg hany]
    exact lookupTag_append_ne m c.template c k h

theorem getLast?_cons_or {α : Type} (c : α) (l : List α) :
    (c :: l).getLast? = l.getLast?.or (some c) := by
  induction l generalizing c with
  | nil => rfl
  | cons d t ih =>
    rw [List.getLast?_cons_cons, ih d]
    cases ht : t.getLast? with
    | none => rfl
    | some z => rfl

theorem tagMap_lookup_aux (k : String) :
    ∀ (cands : List TagCandidate) (m : List (String × TagCandidate)),
    lookupTag (cands.foldl insertTagCandidate m) k =
      ((cands.filter (fun c => c.template == k)).getLast?).or (lookupTag m k) := by
  intro cands
  induction cands with
  | nil =>
    intro m
    simp [List.foldl]
  | cons c rest ih =>
    intro m
    rw [List.foldl_cons, ih (insertTagCandidate m c)]
    by_cases hck : c.template = k
    · have hself : lookupTag (insertTagCandidate m c) k = some c := by
        rw [← hck]
        exact lookupTag_insert_self m c
      rw [List.filter_cons_of_pos (by simp [hck]), getLast?_cons_or, hself]
      cases hrest : (rest.filter (fun c => c.template == k)).getLast? with
      | none => rfl
      | some z => rfl
    · rw [List.filter_cons_of_neg (by simp [hck]), lookupTag_insert_ne m c k hck]

theorem map_fst_assign (m : List (String × TagCandidate)) (c : TagCandidate) :
    (m.map (fun p => if p.1 == c.template then (p.1, c) else p)).map Prod.fst =
      m.map Prod.fst := by
  induction m with
  | nil => rfl
  | cons p rest ih =>
    rcases p with ⟨kp, cp⟩
    rw [List.map_cons, List.map_cons, List.map_cons]
    by_cases hk : kp = c.template
    · rw [if_pos (by simp [hk] : ((kp, cp).1 == c.template) = true)]
      rw [show (((kp, cp).1, c)).1 = kp from rfl, ih]
    · rw [if_neg (by simp [hk] : ¬ ((kp, cp).1 == c.template) = true), ih]

theorem insertTag_keys (m : List (String × TagCandidate)) (c : TagCandidate) :
    (insertTagCandidate m c).map Prod.fst =
      if c.template ∈ m.map Prod.fst then m.map Prod.fst
      else m.map Prod.fst ++ [c.template] := by
  unfold insertTagCandidate
  by_cases h : m.any (fun p => p.1 == c.template)
  · rw [if_pos h, if_pos ((anyFst_iff _ _).mp h)]
    exact map_fst_assign m c
  · rw [if_neg h, if_neg (fun hm => h ((anyFst_iff _ _).mpr hm))]
    simp

/-- Deduplication keeping first occurrences, in order (how Python dict keys
accumulate under repeated assignment). -/
def firstOccFold (l : List String) : List String :=
  l.foldl (fun acc x => if x ∈ acc then acc else acc ++ [x]) []

theorem tagMap_keys_aux :
    ∀ (cands : List TagCandidate) (m : List (String × TagCandidate)),
    (cands.foldl insertTagCandidate m).map Prod.fst =
      cands.foldl (fun acc c => if c.template ∈ acc then acc else acc ++ [c.template])
        (m.map Prod.fst) := by
  intro cands
  induction cands with
  | nil => intro m; rfl
  | cons c rest ih =>
    intro m
    rw [List.foldl_cons, List.foldl_cons, ih, insertTag_keys]

theorem firstOcc_step_nodup :
    ∀ (l : List String) (acc : List String), acc.Nodup →
    (l.foldl (fun acc x => if x ∈ acc then acc else acc ++ [x]) acc).Nodup := by
  intro l
  induction l with
  | nil => intro acc h; exact h
  | cons x rest ih =>
    intro acc h
    rw [List.foldl_cons]
    by_cases hx : x ∈ acc
    · rw [if_pos hx]
      exact ih acc h
    · rw [if_neg hx]
      apply ih
      simp [List.nodup_append, h, hx]

/-- C10: the tag map built by `BuildVariant.__init__` from the build-level
candidates followed by the variant-config candidates keeps exactly one
candidate per literal template string: looking a template string up yields
the LAST candidate definition bearing it, the key order (which is the
iteration order of `render_tags`) is the order of FIRST occurrences of the
template strings, and the keys are duplicate-free. -/
theorem variantTags_spec (buildLevel configLevel : List TagCandidate) :
    (∀ k, lookupTag (variantTags buildLevel configLevel) k =
        ((buildLevel ++ configLevel).filter (fun c => c.template == k)).getLast?) ∧
    (variantTags buildLevel configLevel).map Prod.fst =
      firstOccFold ((buildLevel ++ configLevel).map (fun c => c.template)) ∧
    ((variantTags buildLevel configLevel).map Prod.fst).Nodup := by
  refine ⟨?_, ?_, ?_⟩
  · intro k
    have h := tagMap_lookup_aux k (buildLevel ++ configLevel) []
    rw [show lookupTag [] k = none from rfl, Option.or_none] at h
    exact h
  · have h := tagMap_keys_aux (buildLevel ++ configLevel) []
    rw [show ([] : List (String × TagCandidate)).map Prod.fst = [] from rfl] at h
    rw [variantTags, tagMapOf, h, firstOccFold, List.foldl_map]
  · rw [show (variantTags buildLevel configLevel).map Prod.fst =
        (buildLevel ++ configLevel).foldl
          (fun acc c => if c.template ∈ acc then acc else acc ++ [c.template]) [] from
      tagMap_keys_aux (buildLevel ++ configLevel) []]
    have h := firstOcc_step_nodup ((buildLevel ++ configLevel).map (fun c => c.template)) []
      List.nodup_nil
    rw [List.foldl_map] at h
    exact h

example : variantTags [TagCandidate.mk "latest" [] false false]
    [TagCandidate.mk "latest" ["^v"] true true,
     TagCandidate.mk "tip" [] false false] =
    [("latest", TagCandidate.mk "latest" ["^v"] true true),
     ("tip", TagCandidate.mk "tip" [] false false)] := by decide

/-- A Build Variant (`BuildVariant.__init__` after construction): one
directory-level configuration layer.  The filesystem inputs the constructor
reads are carried as fields: `config_file` is the configured config file
name (`None` when not provided), `template` is the compiled Dockerfile
template (falling back to the parent's compiled template, or `None` when
neither exists), `tags` is the insertion-ordered candidate map built by the
assignment loop, `variables` the merged variant variables, and
`dockerignore` the raw lines of an existing `.dockerignore` (or `None` when
the file does not exist). -/
structure BuildVariant where
  directory : String
  config_file : Option String
  template_file : String
  template : Option Tmpl
  tags : List (String × TagCandidate)
  variables' : List (String × Val)
  dockerignore : Option (List String)
deriving Repr

/-- The loop of `BuildVariant.render_tags` (lines 213-219): iterate the
candidate map in insertion order; render each selected candidate with the
variant's variables deep-merged under the caller's variables.  A `none`
result propagates a non-terminating re-render; an error propagates the
raised rendering exception (which aborts the whole loop, as an uncaught
Python exception would). -/
def render_tagsAux (search : String → String → Bool) (vvars : List (String × Val))
    (vars : List (String × Val)) (select : Option String) (primary : Bool) (fuel : Nat) :
    List (String × TagCandidate) → Option (Except String (List String))
  | [] => some (.ok [])
  | (_, c) :: rest =>
    if c.selected search select primary then
      match c.render (merge_dict vvars vars) fuel with
      | none => none
      | some (.error e) => some (.error e)
      | some (.ok s) =>
        match render_tagsAux search vvars vars select primary fuel rest with
        | none => none
        | some (.error e) => some (.error e)
        | some (.ok ts) => some (.ok (s :: ts))
    else render_tagsAux search vvars vars select primary fuel rest

/-- `BuildVariant.render_tags(variables, select, primary)`. -/
def BuildVariant.render_tags (search : String → String → Bool) (v : BuildVariant)
    (vars : List (String × Val)) (select : Option String) (primary : Bool) (fuel : Nat) :
    Option (Except String (List String)) :=
  render_tagsAux search v.variables' vars select primary fuel v.tags

/-- `BuildVariant.render_dockerfile(variables)` (lines 208-211): render the
compiled template with the variant's variables deep-merged under the
caller's.  A variant with no compiled template at all (no template file and
no parent fallback) would crash the Python original on `None.render`;
modelled as an error. -/
def BuildVariant.render_dockerfile (v : BuildVariant) (vars : List (String × Val))
    (fuel : Nat) : Option (Except String String) :=
  match v.template with
  | none => some (.error "no template")
  | some t => render_template true t (merge_dict v.variables' vars) fuel

/-- Lexicographic comparison of character lists (how Python compares
strings, by code points). -/
def charListLe : List Char → List Char → Bool
  | [], _ => true
  | _ :: _, [] => false
  | a :: as, b :: bs =>
    if a < b then true else if b < a then false else charListLe as bs

/-- Lexicographic string comparison. -/
def strLe (a b : String) : Bool := charListLe a.toList b.toList

/-- Insert into a sorted list of strings (helper for the model of Python's
`sorted`). -/
def insertSorted (x : String) : List String → List String
  | [] => [x]
  | y :: rest => if strLe x y then x :: y :: rest else y :: insertSorted x rest

/-- Python `sorted(...)` on a list of strings, modelled as insertion sort
(same result: the sorted permutation; sorting is on whole strings, so
stability is irrelevant). -/
def sortStrings : List String → List String
  | [] => []
  | x :: rest => insertSorted x (sortStrings rest)

/-- `BuildVariant.files(exclude)` (lines 193-206).  `ep directory patterns`
stands for docker-py's `exclude_paths` collaborator (an external dependency:
it walks the directory and applies ignore-glob semantics).  The Python
function aliases the caller's list (`_exclude = exclude`) and appends onto
it in place, so the result is returned TOGETHER with the final state of the
caller's list: first the sorted file list, then the mutated exclusion
list. -/
def BuildVariant.files (ep : String → List String → List String) (v : BuildVariant)
    (exclude : List String) : List String × List String :=
  let e1 := exclude ++ [match v.config_file with
    | some c => if c = "" then "image-build.yml" else c
    | none => "image-build.yml"]
  let e2 := e1 ++ [v.template_file]
  let e3 := match v.dockerignore with
    | some ls => e2 ++ ls.filter (fun l => decide (l ≠ ""))
    | none => e2
  (sortStrings (ep v.directory e3), e3)

example : sortStrings ["b", "a", "c"] = ["a", "b", "c"] := by decide

/-- C7 amended: `files(exclude)` hands `exclude_paths` the effective
exclusion list "caller's exclusions, then the variant's config file name (or
the literal `image-build.yml` when none/empty is configured), then the
variant's template file, then the non-blank `.dockerignore` lines", and
returns the sorted result of `exclude_paths` over it — but it APPENDS those
entries onto the caller's list in place: the second component (the state of
the caller's list after the call) is the extended list, not the original. -/
theorem files_spec (ep : String → List String → List String) (v : BuildVariant)
    (exclude : List String) :
    ((BuildVariant.files ep v exclude).2 =
      exclude
        ++ [match v.config_file with
            | some c => if c = "" then "image-build.yml" else c
            | none => "image-build.yml"]
        ++ [v.template_file]
        ++ (match v.dockerignore with
            | some ls => ls.filter (fun l => decide (l ≠ ""))
            | none => [])) ∧
    ((BuildVariant.files ep v exclude).1 =
      sortStrings (ep v.directory ((BuildVariant.files ep v exclude).2))) ∧
    (∀ p, p ∈ (BuildVariant.files ep v exclude).2 ↔
      (p ∈ exclude ∨
       p = (match v.config_file with
            | some c => if c = "" then "image-build.yml" else c
            | none => "image-build.yml") ∨
       p = v.template_file ∨
       (∃ ls, v.dockerignore = some ls ∧ p ∈ ls ∧ p ≠ ""))) := by
  refine ⟨?_, ?_, ?_⟩
  · unfold BuildVariant.files
    cases v.dockerignore <;> simp
  · unfold BuildVariant.files
    cases v.dockerignore <;> rfl
  · intro p
    unfold BuildVariant.files
    cases hd : v.dockerignore with
    | none =>
      simp only [List.append_nil, List.mem_append, List.mem_singleton]
      constructor
      · rintro ((h | h) | h)
        · exact Or.inl h
        · exact Or.inr (Or.inl h)
        · exact Or.inr (Or.inr (Or.inl h))
      · rintro (h | h | h | ⟨ls, hls, _⟩)
        · exact Or.inl (Or.inl h)
        · exact Or.inl (Or.inr h)
        · exact Or.inr h
        · cases hls
    | some ls =>
      simp only [List.mem_append, List.mem_singleton, List.mem_filter, decide_eq_true_iff]
      constructor
      · rintro (((h | h) | h) | ⟨hmem, hne⟩)
        · exact Or.inl h
        · exact Or.inr (Or.inl h)
        · exact Or.inr (Or.inr (Or.inl h))
        · exact Or.inr (Or.inr (Or.inr ⟨ls, rfl, hmem, hne⟩))
      · rintro (h | h | h | ⟨ls2, hls2, hmem, hne⟩)
        · exact Or.inl (Or.inl (Or.inl h))
        · exact Or.inl (Or.inl (Or.inr h))
        · exact Or.inl (Or.inr h)
        · injection hls2 with he
          rw [← he] at hmem
          exact Or.inr ⟨hmem, hne⟩

/-- Directory listings of the two variant directories in the C7
counterexample. -/
def fsC7 : String → List String := fun d =>
  if d = "variants/b" then ["app.py", "secret.txt"] else ["data.txt", "secret.txt"]

/-- Modelled from the spec: docker-py's `exclude_paths` collaborator, an
external dependency described as applying "standard ignore-file glob
semantics" to the variant directory's files; instantiated for the C7
counterexample with exact-name patterns over the fixed listings above. -/
def epC7 : String → List String → List String := fun d pats =>
  (fsC7 d).filter (fun f => !(pats.any (fun p => p == f)))

/-- First variant of the C7 counterexample: its `.dockerignore` lists
`secret.txt`. -/
def variantA : BuildVariant :=
  { directory := "variants/a", config_file := some "image-build.yml",
    template_file := "Dockerfile.j2", template := none, tags := [],
    variables' := [], dockerignore := some ["secret.txt"] }

/-- Second variant of the C7 counterexample: no `.dockerignore`; its context
contains a file `secret.txt` that its own exclusions do not cover. -/
def variantB : BuildVariant :=
  { directory := "variants/b", config_file := some "image-build.yml",
    template_file := "Dockerfile.j2", template := none, tags := [],
    variables' := [], dockerignore := none }

/-- C7 counterexample: the call does NOT leave the caller's exclusion list
unchanged — after `variantA.files([])` the (shared default) list carries
variantA's config file, template file and dockerignore pattern — and a
second default-argument call for `variantB` inherits them, wrongly dropping
`variantB`'s `secret.txt` context file compared with a call on a fresh empty
list. -/
theorem files_mutation_counterexample :
    (BuildVariant.files epC7 variantA []).2 =
      ["image-build.yml", "Dockerfile.j2", "secret.txt"] ∧
    (BuildVariant.files epC7 variantB ((BuildVariant.files epC7 variantA []).2)).1 =
      ["app.py"] ∧
    (BuildVariant.files epC7 variantB []).1 = ["app.py", "secret.txt"] := by
  refine ⟨rfl, rfl, rfl⟩

/-- A `Build` as constructed by `Build.__init__`: the source descriptor
(with the `primary` default already applied: the first source tag), the
variants directory path, the root variant (key `'.'` in the original), and
the per-source-tag override variants — one for each source tag whose
directory exists under `variants_dir`.  (`namespace` is a Lean keyword, so
the field carries a prime.) -/
structure Build where
  name : String
  namespace' : String
  sourceName : String
  sourceTags : List String
  primary : String
  variantsDir : String
  rootVariant : BuildVariant
  variants : List (String × BuildVariant)
deriving Repr

/-- `source_tag in build.variants` / `build.variants[source_tag]`. -/
def lookupVariant (m : List (String × BuildVariant)) (k : String) : Option BuildVariant :=
  match m.find? (fun p => p.1 == k) with
  | some p => some p.2
  | none => none

/-- The externally visible actions of `Builder.build`: build-engine
invocations, image tagging, pushes, exports, the "no applicable destination
tags" log line, and the dry-run report block. -/
inductive Event where
  | engineBuild (buildName sourceTag : String)
  | tagImage (repo tag : String)
  | pushImage (repo : String)
  | saveImage (repo : String)
  | logNoDest (sourceTag : String)
  | report (sourceTag : String) (tags : List String)
deriving DecidableEq, Repr

/-- Events that touch the build engine or publish images (engine build,
tagging, push, export). -/
def Event.isAction : Event → Bool
  | .engineBuild _ _ => true
  | .tagImage _ _ => true
  | .pushImage _ => true
  | .saveImage _ => true
  | .logNoDest _ => false
  | .report _ _ => false

/-- The mutable state threaded through `Builder.build`: `vars` is the
builder's `self.variables` dict (every iteration aliases it as
`build_variables`), `rootExcludes` is the `root_excludes` list (mutated in
place by `files(root_excludes)`), `filesDefault` is the shared default-value
list of `BuildVariant.files` (mutated in place by the `files()` calls with
no argument), `events` the actions performed so far, and `hasApplicable`
the per-build `has_applicable_tags` flag. -/
structure LoopState where
  vars : List (String × Val)
  rootExcludes : List String
  filesDefault : List String
  events : List Event
  hasApplicable : Bool
deriving Repr

/-- Outcome of a piece of the builder loop: normal value, an uncaught
exception (with the actions performed so far), or an exhausted re-render
budget (the embedded stand-in for a non-terminating rendering). -/
inductive Step (α : Type) where
  | ok : α → Step α
  | crash : String → List Event → Step α
  | fuelOut : Step α
deriving Repr

/-- Lines 343-348 of `Builder.build`: `build_variables = self.variables`
(an alias of the builder's own dict, so earlier contents persist!) followed
by the fresh assignments of `_source`, `_dest` and `_timestamp` for this
source-tag iteration. -/
def injectScaffold (bd : Build) (timestamp sourceTag : String)
    (vars : List (String × Val)) : List (String × Val) :=
  setKey (setKey (setKey vars "_source"
      (Val.dict [("name", Val.str bd.sourceName), ("tag", Val.str sourceTag),
                 ("primary", Val.bool (sourceTag == bd.primary))]))
    "_dest" (Val.dict [("name", Val.str bd.name), ("namespace", Val.str bd.namespace')]))
    "_timestamp" (Val.str timestamp)

/-- `build_variables['_dest']['tags'] = tags` (lines 351 and 363): mutates
the `tags` entry of the nested `_dest` dict.  `_dest` is always a dict at
these lines (it was just assigned); the fallback branch is unreachable. -/
def setDestTags (vars : List (String × Val)) (tags : List String) : List (String × Val) :=
  match lookupVal vars "_dest" with
  | some (Val.dict d) =>
    setKey vars "_dest" (Val.dict (setKey d "tags" (Val.list (tags.map Val.str))))
  | _ => vars

/-- `repository = os.path.join(build.namespace, build.name)` (line 338). -/
def repoOf (bd : Build) : String := bd.namespace' ++ "/" ++ bd.name

/-- The tail of one source-tag iteration (lines 373-396): in dry-run mode
print the report (no engine interaction); otherwise, with a non-empty tag
list, invoke the engine and tag the image with every destination tag
(`has_applicable_tags = True`); with an empty tag list, log "no applicable
destination tags" and skip the build phase. -/
def finishIteration (dry : Bool) (bd : Build) (sourceTag : String) (tags : List String)
    (st : LoopState) : LoopState :=
  if dry then
    { st with events := st.events ++ [Event.report sourceTag tags] }
  else if tags.length > 0 then
    { st with
        events := st.events ++ Event.engineBuild bd.name sourceTag ::
          tags.map (fun t => Event.tagImage (repoOf bd) t),
        hasApplicable := true }
  else
    { st with events := st.events ++ [Event.logNoDest sourceTag] }

/-- One source-tag iteration of `Builder.build` (lines 343-396): inject the
variable scaffold, render the root tags and Dockerfile, compute the root
context files (mutating `root_excludes` in place), then — when an override
variant exists for this source tag — re-render tags from the override
variant (REPLACING the root tags), inject `_base`, render the override
Dockerfile and compute the override files with the shared default exclusion
list; finally perform the dry-run report or the engine/tagging phase.  The
engine itself is an external collaborator; the model records its invocation
as an event (its failure path raises `BuildError`, which the caller
handles). -/
def buildIteration (search : String → String → Bool)
    (ep : String → List String → List String) (select : Option String) (dry : Bool)
    (fuel : Nat) (bd : Build) (timestamp sourceTag : String) (st : LoopState) :
    Step LoopState :=
  let primary := sourceTag == bd.primary
  let vars3 := injectScaffold bd timestamp sourceTag st.vars
  match BuildVariant.render_tags search bd.rootVariant vars3 select primary fuel with
  | none => .fuelOut
  | some (.error e) => .crash e st.events
  | some (.ok rootTags) =>
    let vars4 := setDestTags vars3 rootTags
    match BuildVariant.render_dockerfile bd.rootVariant vars4 fuel with
    | none => .fuelOut
    | some (.error e) => .crash e st.events
    | some (.ok dockerfile) =>
      let rootFilesPair := BuildVariant.files ep bd.rootVariant st.rootExcludes
      match lookupVariant bd.variants sourceTag with
      | some ov =>
        match BuildVariant.render_tags search ov vars4 select primary fuel with
        | none => .fuelOut
        | some (.error e) => .crash e st.events
        | some (.ok ovTags) =>
          let vars5 := setDestTags vars4 ovTags
          let vars6 := setKey vars5 "_base" (Val.str dockerfile)
          match BuildVariant.render_dockerfile ov vars6 fuel with
          | none => .fuelOut
          | some (.error e) => .crash e st.events
          | some (.ok _dockerfile2) =>
            let ovFilesPair := BuildVariant.files ep ov st.filesDefault
            .ok (finishIteration dry bd sourceTag ovTags
              { st with vars := vars6, rootExcludes := rootFilesPair.2,
                        filesDefault := ovFilesPair.2 })
      | none =>
        .ok (finishIteration dry bd sourceTag rootTags
          { st with vars := vars4, rootExcludes := rootFilesPair.2 })

/-- The `for source_tag in build.source['tags']` loop of one build. -/
def buildTagsLoop (search : String → String → Bool)
    (ep : String → List String → List String) (select : Option String) (dry : Bool)
    (fuel : Nat) (bd : Build) (timestamp : String) :
    List String → LoopState → Step LoopState
  | [], st => .ok st
  | tag :: rest, st =>
    match buildIteration search ep select dry fuel bd timestamp tag st with
    | .ok st' => buildTagsLoop search ep select dry fuel bd timestamp rest st'
    | .crash e evs => .crash e evs
    | .fuelOut => .fuelOut

/-- Lines 398-414: after all source tags of one build, push and/or export
when requested (and not in dry-run mode) if some tag applied; otherwise,
unless `--ignore-empty`, report the build as failed (`return False` aborts
the remaining builds).  Push and export are external collaborators modelled
as succeeding; their failure paths also return `False`. -/
def buildPostlude (pushF saveF dry ignoreEmpty : Bool) (bd : Build) (st : LoopState) :
    Step (LoopState × Bool) :=
  if st.hasApplicable then
    let st1 := if pushF && !dry then
        { st with events := st.events ++ [Event.pushImage (repoOf bd)] }
      else st
    let st2 := if saveF && !dry then
        { st1 with events := st1.events ++ [Event.saveImage (repoOf bd)] }
      else st1
    .ok (st2, true)
  else
    if ignoreEmpty then .ok (st, true) else .ok (st, false)

/-- One build of the `for build in self.builds` loop (lines 336-417):
`has_applicable_tags = False`, the source-tag loop, then the postlude. -/
def buildOneBuild (search : String → String → Bool)
    (ep : String → List String → List String) (select : Option String)
    (pushF saveF dry ignoreEmpty : Bool) (fuel : Nat) (bd : Build) (timestamp : String)
    (st : LoopState) : Step (LoopState × Bool) :=
  match buildTagsLoop search ep select dry fuel bd timestamp bd.sourceTags
      { st with hasApplicable := false } with
  | .ok st' => buildPostlude pushF saveF dry ignoreEmpty bd st'
  | .crash e evs => .crash e evs
  | .fuelOut => .fuelOut

/-- The configuration of a `Builder` (its constructor arguments after
manifest parsing). -/
structure BuilderCfg where
  variables' : List (String × Val)
  select : Option String
  push : Bool
  save : Bool
  dry_run : Bool
  ignore_empty : Bool
  builds : List Build
deriving Repr

/-- Result of a whole `Builder.build()` run: the returned boolean with the
performed actions, an uncaught exception, or an exhausted re-render
budget. -/
inductive RunOut where
  | finished : Bool → List Event → RunOut
  | crashed : String → List Event → RunOut
  | fuelOut : RunOut
deriving Repr

/-- The actions performed by a run. -/
def RunOut.events : RunOut → List Event
  | .finished _ evs => evs
  | .crashed _ evs => evs
  | .fuelOut => []

/-- Lines 331-334: `root_excludes` collects every build's variants directory
and root template file before any build runs. -/
def initRootExcludes (builds : List Build) : List String :=
  builds.foldl (fun acc bd => acc ++ [bd.variantsDir, bd.rootVariant.template_file]) []

/-- The outer `for build in self.builds` loop; `timestampOf i` stands for
the `datetime.now()` timestamp taken once per build (index `i`). -/
def builderLoop (search : String → String → Bool)
    (ep : String → List String → List String) (cfg : BuilderCfg)
    (timestampOf : Nat → String) (fuel : Nat) :
    List Build → Nat → LoopState → RunOut
  | [], _, st => .finished true st.events
  | bd :: rest, i, st =>
    match buildOneBuild search ep cfg.select cfg.push cfg.save cfg.dry_run cfg.ignore_empty
        fuel bd (timestampOf i) st with
    | .ok (st', true) => builderLoop search ep cfg timestampOf fuel rest (i + 1) st'
    | .ok (st', false) => .finished false st'.events
    | .crash e evs => .crashed e evs
    | .fuelOut => .fuelOut

/-- `Builder.build()` (lines 330-418). -/
def Builder.build (search : String → String → Bool)
    (ep : String → List String → List String) (cfg : BuilderCfg)
    (timestampOf : Nat → String) (fuel : Nat) : RunOut :=
  builderLoop search ep cfg timestampOf fuel cfg.builds 0
    { vars := cfg.variables', rootExcludes := initRootExcludes cfg.builds,
      filesDefault := [], events := [], hasApplicable := false }

/-- C5: when an override variant exists for the source tag, the destination
tag list used for the iteration's build phase is exactly the override
variant's rendered tag list — the root variant's rendered tags are replaced,
never unioned — and when the override list is empty (in particular when the
override variant declares zero tag candidates) the engine call for the
iteration is skipped and the "no applicable destination tags" message is
logged instead. -/
theorem override_replaces_tags
    (search : String → String → Bool) (ep : String → List String → List String)
    (select : Option String) (fuel : Nat) (bd : Build) (timestamp sourceTag : String)
    (st : LoopState) (ov : BuildVariant) (rootTags : List String) (dockerfile : String)
    (ovTags : List String) (df2 : String)
    (hov : lookupVariant bd.variants sourceTag = some ov)
    (hroot : BuildVariant.render_tags search bd.rootVariant
      (injectScaffold bd timestamp sourceTag st.vars) select (sourceTag == bd.primary) fuel
      = some (.ok rootTags))
    (hdf : BuildVariant.render_dockerfile bd.rootVariant
      (setDestTags (injectScaffold bd timestamp sourceTag st.vars) rootTags) fuel
      = some (.ok dockerfile))
    (hovt : BuildVariant.render_tags search ov
      (setDestTags (injectScaffold bd timestamp sourceTag st.vars) rootTags) select
      (sourceTag == bd.primary) fuel = some (.ok ovTags))
    (hdf2 : BuildVariant.render_dockerfile ov
      (setKey (setDestTags (setDestTags (injectScaffold bd timestamp sourceTag st.vars)
        rootTags) ovTags) "_base" (Val.str dockerfile)) fuel = some (.ok df2)) :
    ∃ st', buildIteration search ep select false fuel bd timestamp sourceTag st = .ok st' ∧
      st'.events = st.events ++
        (if ovTags.length > 0 then
          Event.engineBuild bd.name sourceTag ::
            ovTags.map (fun t => Event.tagImage (repoOf bd) t)
        else [Event.logNoDest sourceTag]) := by
  refine ⟨finishIteration false bd sourceTag ovTags
    { st with
        vars := setKey (setDestTags (setDestTags (injectScaffold bd timestamp sourceTag st.vars)
          rootTags) ovTags) "_base" (Val.str dockerfile),
        rootExcludes := (BuildVariant.files ep bd.rootVariant st.rootExcludes).2,
        filesDefault := (BuildVariant.files ep ov st.filesDefault).2 }, ?_, ?_⟩
  · simp only [buildIteration, hroot, hdf, hov, hovt, hdf2]
  · by_cases h : ovTags.length > 0
    · simp [finishIteration, h]
    · simp [finishIteration, h]

/-- Root variant of the C5 witness build: one tag candidate `latest`. -/
def rootVariantW : BuildVariant :=
  { directory := ".", config_file := none, template_file := "Dockerfile.j2",
    template := some [Item.lit "FROM base"],
    tags := [("latest", TagCandidate.mk "latest" [] false false)],
    variables' := [], dockerignore := none }

/-- Override variant of the C5 witness build: zero tag candidates. -/
def ovVariantW : BuildVariant :=
  { directory := "variants/1.0", config_file := some "image-build.yml",
    template_file := "Dockerfile.j2", template := some [Item.lit "FROM override"],
    tags := [], variables' := [], dockerignore := none }

/-- The C5 witness build: one source tag `1.0` with an override variant. -/
def bdW : Build :=
  { name := "app", namespace' := "image-build", sourceName := "base",
    sourceTags := ["1.0"], primary := "1.0", variantsDir := "variants",
    rootVariant := rootVariantW, variants := [("1.0", ovVariantW)] }

/-- Initial loop state of the C5 witness. -/
def stW : LoopState :=
  { vars := [], rootExcludes := [], filesDefault := [], events := [], hasApplicable := false }

/-- Witness for C5 at a concrete build whose override variant declares zero
tag candidates: the iteration logs "no applicable destination tags" and
performs no engine call, although the root variant rendered `latest`. -/
theorem override_replaces_tags_witness :
    (lookupVariant bdW.variants "1.0" = some ovVariantW) ∧
    (BuildVariant.render_tags (fun _ _ => false) bdW.rootVariant
      (injectScaffold bdW "t0" "1.0" stW.vars) none ("1.0" == bdW.primary) 3
      = some (.ok ["latest"])) ∧
    (BuildVariant.render_dockerfile bdW.rootVariant
      (setDestTags (injectScaffold bdW "t0" "1.0" stW.vars) ["latest"]) 3
      = some (.ok "FROM base")) ∧
    (BuildVariant.render_tags (fun _ _ => false) ovVariantW
      (setDestTags (injectScaffold bdW "t0" "1.0" stW.vars) ["latest"]) none
      ("1.0" == bdW.primary) 3 = some (.ok [])) ∧
    (BuildVariant.render_dockerfile ovVariantW
      (setKey (setDestTags (setDestTags (injectScaffold bdW "t0" "1.0" stW.vars)
        ["latest"]) []) "_base" (Val.str "FROM base")) 3 = some (.ok "FROM override")) ∧
    (∃ st', buildIteration (fun _ _ => false) (fun _ _ => []) none false 3 bdW "t0" "1.0" stW
        = .ok st' ∧
      st'.events = stW.events ++
        (if ([] : List String).length > 0 then
          Event.engineBuild bdW.name "1.0" ::
            ([] : List String).map (fun t => Event.tagImage (repoOf bdW) t)
        else [Event.logNoDest "1.0"])) :=
  ⟨rfl, rfl, rfl, rfl, rfl,
   override_replaces_tags (fun _ _ => false) (fun _ _ => []) none 3 bdW "t0" "1.0" stW
     ovVariantW ["latest"] "FROM base" [] "FROM override" rfl rfl rfl rfl rfl⟩

/-- Override variant for source tag `a` in the C6 counterexample build. -/
def ovVariantC6 : BuildVariant :=
  { directory := "variants/a", config_file := some "image-build.yml",
    template_file := "Dockerfile.j2", template := some [Item.lit "FROM override"],
    tags := [], variables' := [], dockerignore := none }

/-- The C6 counterexample build: source tags `a` (with an override variant)
and `b` (without). -/
def bdC6 : Build :=
  { name := "app", namespace' := "image-build", sourceName := "base",
    sourceTags := ["a", "b"], primary := "a", variantsDir := "variants",
    rootVariant :=
      { directory := ".", config_file := none, template_file := "Dockerfile.j2",
        template := some [Item.lit "FROM base"],
        tags := [("latest", TagCandidate.mk "latest" [] false false)],
        variables' := [], dockerignore := none },
    variants := [("a", ovVariantC6)] }

/-- Initial loop state of the C6 counterexample. -/
def stC6 : LoopState :=
  { vars := [], rootExcludes := [], filesDefault := [], events := [], hasApplicable := false }

/-- C6 counterexample: after the iteration for source tag `a` (which has an
override variant and so assigns `_base`), the variable set handed to the
next iteration's rendering — `injectScaffold` only reassigns `_source`,
`_dest` and `_timestamp` on the SAME aliased dict — still contains the
previous iteration's `_base` (the root Dockerfile rendered for `a`), even
though the iteration for `b` has no override variant and computes no `_base`
of its own. -/
theorem stale_base_counterexample :
    (match buildIteration (fun _ _ => false) (fun _ _ => []) none false 3 bdC6
        "20170101000000" "a" stC6 with
     | .ok st' => lookupVal (injectScaffold bdC6 "20170101000000" "b" st'.vars) "_base"
     | .crash _ _ => none
     | .fuelOut => none) = some (Val.str "FROM base") := rfl

/-- C6 amended: the `_source`, `_dest` and `_timestamp` entries ARE
reassigned afresh at the start of every source-tag iteration — whatever the
variable dict contained before, after the scaffold injection they hold
exactly the values computed for this iteration (so a previous iteration's
tags inside `_dest` cannot leak) — but `_base` is only ever assigned inside
the override branch and never cleared, so it persists into later iterations
that have no override variant (see the counterexample). -/
theorem injectScaffold_fresh (bd : Build) (timestamp sourceTag : String)
    (vars : List (String × Val)) :
    lookupVal (injectScaffold bd timestamp sourceTag vars) "_source" =
      some (Val.dict [("name", Val.str bd.sourceName), ("tag", Val.str sourceTag),
                      ("primary", Val.bool (sourceTag == bd.primary))]) ∧
    lookupVal (injectScaffold bd timestamp sourceTag vars) "_dest" =
      some (Val.dict [("name", Val.str bd.name), ("namespace", Val.str bd.namespace')]) ∧
    lookupVal (injectScaffold bd timestamp sourceTag vars) "_timestamp" =
      some (Val.str timestamp) := by
  unfold injectScaffold
  refine ⟨?_, ?_, ?_⟩
  · rw [lookupVal_setKey_ne _ _ _ _ (by decide), lookupVal_setKey_ne _ _ _ _ (by decide),
      lookupVal_setKey_self]
  · rw [lookupVal_setKey_ne _ _ _ _ (by decide), lookupVal_setKey_self]
  · rw [lookupVal_setKey_self]

/-- No engine invocation, tagging, push or export among the given actions. -/
def actionFree (evs : List Event) : Prop := ∀ e ∈ evs, e.isAction = false

theorem actionFree_append {evs1 evs2 : List Event} (h1 : actionFree evs1)
    (h2 : actionFree evs2) : actionFree (evs1 ++ evs2) := by
  intro e he
  rcases List.mem_append.mp he with h | h
  · exact h1 e h
  · exact h2 e h

theorem finishIteration_dry_actionFree (bd : Build) (tag : String) (tags : List String)
    (st : LoopState) (h : actionFree st.events) :
    actionFree ((finishIteration true bd tag tags st).events) := by
  unfold finishIteration
  apply actionFree_append h
  intro e he
  rw [List.mem_singleton] at he
  rw [he]
  rfl

theorem buildIteration_dry_actionFree (search : String → String → Bool)
    (ep : String → List String → List String) (select : Option String) (fuel : Nat)
    (bd : Build) (ts tag : String) (st : LoopState) (h : actionFree st.events) :
    (∀ st', buildIteration search ep select true fuel bd ts tag st = .ok st' →
      actionFree st'.events) ∧
    (∀ e evs, buildIteration search ep select true fuel bd ts tag st = .crash e evs →
      actionFree evs) := by
  constructor
  · intro st' heq
    simp only [buildIteration] at heq
    repeat' split at heq
    all_goals try cases heq
    all_goals exact finishIteration_dry_actionFree _ _ _ _ h
  · intro e evs heq
    simp only [buildIteration] at heq
    repeat' split at heq
    all_goals try cases heq
    all_goals exact h

theorem buildTagsLoop_dry_actionFree (search : String → String → Bool)
    (ep : String → List String → List String) (select : Option String) (fuel : Nat)
    (bd : Build) (ts : String) :
    ∀ (tags : List String) (st : LoopState), actionFree st.events →
    (∀ st', buildTagsLoop search ep select true fuel bd ts tags st = .ok st' →
      actionFree st'.events) ∧
    (∀ e evs, buildTagsLoop search ep select true fuel bd ts tags st = .crash e evs →
      actionFree evs) := by
  intro tags
  induction tags with
  | nil =>
    intro st h
    constructor
    · intro st' heq
      injection heq with h'
      rw [← h']
      exact h
    · intro e evs heq
      cases heq
  | cons t rest ih =>
    intro st h
    have hit := buildIteration_dry_actionFree search ep select fuel bd ts t st h
    constructor
    · intro st' heq
      rw [buildTagsLoop] at heq
      split at heq
      · next st1 hstep => exact (ih st1 (hit.1 st1 hstep)).1 st' heq
      · cases heq
      · cases heq
    · intro e evs heq
      rw [buildTagsLoop] at heq
      split at heq
      · next st1 hstep => exact (ih st1 (hit.1 st1 hstep)).2 e evs heq
      · next e1 evs1 hstep =>
        injection heq with h1 h2
        rw [← h2]
        exact hit.2 e1 evs1 hstep
      · cases heq

theorem buildPostlude_dry_actionFree (pushF saveF ignoreEmpty : Bool) (bd : Build)
    (st : LoopState) (h : actionFree st.events) :
    ∀ st' cont, buildPostlude pushF saveF true ignoreEmpty bd st = .ok (st', cont) →
      actionFree st'.events := by
  intro st' cont heq
  unfold buildPostlude at heq
  simp only [Bool.not_true, Bool.and_false, Bool.false_eq_true, if_false] at heq
  split at heq
  · injection heq with h'
    injection h' with h1 h2
    rw [← h1]
    exact h
  · split at heq
    · injection heq with h'
      injection h' with h1 h2
      rw [← h1]
      exact h
    · injection heq with h'
      injection h' with h1 h2
      rw [← h1]
      exact h

theorem buildOneBuild_dry_actionFree (search : String → String → Bool)
    (ep : String → List String → List String) (select : Option String)
    (pushF saveF ignoreEmpty : Bool) (fuel : Nat) (bd : Build) (ts : String)
    (st : LoopState) (h : actionFree st.events) :
    (∀ st' cont, buildOneBuild search ep select pushF saveF true ignoreEmpty fuel bd ts st
        = .ok (st', cont) → actionFree st'.events) ∧
    (∀ e evs, buildOneBuild search ep select pushF saveF true ignoreEmpty fuel bd ts st
        = .crash e evs → actionFree evs) := by
  have hloop := buildTagsLoop_dry_actionFree search ep select fuel bd ts bd.sourceTags
    { st with hasApplicable := false } h
  constructor
  · intro st' cont heq
    unfold buildOneBuild at heq
    split at heq
    · next st1 hstep =>
      exact buildPostlude_dry_actionFree pushF saveF ignoreEmpty bd st1
        (hloop.1 st1 hstep) st' cont heq
    · cases heq
    · cases heq
  · intro e evs heq
    unfold buildOneBuild at heq
    split at heq
    · next st1 hstep =>
      exfalso
      unfold buildPostlude at heq
      split at heq
      · cases heq
      · split at heq
        · cases heq
        · cases heq
    · next e1 evs1 hstep =>
      injection heq with h1 h2
      rw [← h2]
      exact hloop.2 e1 evs1 hstep
    · cases heq

theorem builderLoop_dry_actionFree (search : String → String → Bool)
    (ep : String → List String → List String) (cfg : BuilderCfg)
    (timestampOf : Nat → String) (fuel : Nat) (hdry : cfg.dry_run = true) :
    ∀ (builds : List Build) (i : Nat) (st : LoopState), actionFree st.events →
      actionFree ((builderLoop search ep cfg timestampOf fuel builds i st).events) := by
  intro builds
  induction builds with
  | nil =>
    intro i st h
    exact h
  | cons bd rest ih =>
    intro i st h
    rw [builderLoop]
    split
    · next st' hstep =>
      rw [hdry] at hstep
      exact ih (i + 1) st'
        ((buildOneBuild_dry_actionFree search ep cfg.select cfg.push cfg.save
          cfg.ignore_empty fuel bd (timestampOf i) st h).1 st' true hstep)
    · next st' hstep =>
      rw [hdry] at hstep
      exact (buildOneBuild_dry_actionFree search ep cfg.select cfg.push cfg.save
        cfg.ignore_empty fuel bd (timestampOf i) st h).1 st' false hstep
    · next e evs hstep =>
      rw [hdry] at hstep
      exact (buildOneBuild_dry_actionFree search ep cfg.select cfg.push cfg.save
        cfg.ignore_empty fuel bd (timestampOf i) st h).2 e evs hstep
    · intro e he
      cases he

/-- C9: with `--dry-run`, a whole `Builder.build()` run performs no
build-engine invocation, no image tagging, no push and no export, for any
manifest, any other flag combination and any build/source-tag structure:
every recorded action of the run (including of a run that aborts on a
rendering error) is a log or report line. -/
theorem dry_run_no_actions (search : String → String → Bool)
    (ep : String → List String → List String) (cfg : BuilderCfg)
    (timestampOf : Nat → String) (fuel : Nat) (hdry : cfg.dry_run = true) :
    ∀ e ∈ (Builder.build search ep cfg timestampOf fuel).events, e.isAction = false := by
  apply builderLoop_dry_actionFree search ep cfg timestampOf fuel hdry cfg.builds 0
  intro e he
  cases he

/-- The C9 witness configuration: dry-run enabled together with push and
export requested. -/
def cfgW9 : BuilderCfg :=
  { variables' := [], select := none, push := true, save := true, dry_run := true,
    ignore_empty := true,
    builds := [{ name := "app", namespace' := "image-build", sourceName := "base",
                 sourceTags := ["1.0"], primary := "1.0", variantsDir := "variants",
                 rootVariant :=
                   { directory := ".", config_file := none,
                     template_file := "Dockerfile.j2",
                     template := some [Item.lit "FROM base"],
                     tags := [("latest", TagCandidate.mk "latest" [] false false)],
                     variables' := [], dockerignore := none },
                 variants := [] }] }

/-- Witness for C9 at the concrete configuration above. -/
theorem dry_run_no_actions_witness :
    (cfgW9.dry_run = true) ∧
    (∀ e ∈ (Builder.build (fun _ _ => false) (fun _ _ => []) cfgW9 (fun _ => "t0") 3).events,
      e.isAction = false) :=
  ⟨rfl, dry_run_no_actions (fun _ _ => false) (fun _ _ => []) cfgW9 (fun _ => "t0") 3 rfl⟩

/-- One streamed build-engine event as decoded by `json_stream` (each JSON
object carries at most one of `stream`, `status`, `error`). -/
structure BuildEvent where
  stream : Option String
  status : Option String
  error : Option String
deriving DecidableEq, Repr

/-- Hexadecimal digit as in the pattern `[0-9a-f]`. -/
def hexChar (c : Char) : Bool :=
  ('0' ≤ c && c ≤ '9') || ('a' ≤ c && c ≤ 'f')

/-- Whether the second character list starts with the first. -/
def beginsWith : List Char → List Char → Bool
  | [], _ => true
  | _ :: _, [] => false
  | a :: as, b :: bs => a == b && beginsWith as bs

/-- `re.search(r'Successfully built ([0-9a-f]+)', s)`: scan for the literal
marker followed by at least one hex digit and return the captured digits of
the leftmost match. -/
def scanMarker : List Char → Option String
  | [] => none
  | c :: rest =>
    if beginsWith ("Successfully built ".toList) (c :: rest) then
      let hex := ((c :: rest).drop 19).takeWhile hexChar
      if hex.isEmpty then scanMarker rest else some (String.mk hex)
    else scanMarker rest

/-- `re.search(r'Successfully built ([0-9a-f]+)', s)` on a string. -/
def findMarker (s : String) : Option String := scanMarker s.toList

example : findMarker "Successfully built abc123\n" = some "abc123" := by decide
example : findMarker "Step 1/2 : FROM x" = none := by decide

/-- Outcome of `Builder.build_image`: a returned image id, a raised
`BuildError`, or a raised `UnboundLocalError` (Python evaluates
`if image_id:` although no branch assigned `image_id`). -/
inductive BuildOutcome where
  | ok : String → BuildOutcome
  | buildError : String → BuildOutcome
  | nameError : BuildOutcome
deriving DecidableEq, Repr

/-- `Builder.build_image` (lines 287-312) over the decoded engine events:
the streaming loop raises `BuildError` at the first event carrying `error`;
an empty event sequence raises `BuildError('Unknown build error')`; then the
final event is inspected: when its `stream` matches the success marker, the
matched id (a non-empty hex string, hence truthy) is returned.  On every
other path `image_id` was never assigned, so `if image_id:` raises
`UnboundLocalError` — the closing `raise BuildError(event, events)` of the
source is unreachable. -/
def build_image (events : List BuildEvent) : BuildOutcome :=
  match events.find? (fun e => e.error.isSome) with
  | some e => .buildError (e.error.getD "")
  | none =>
    match events.getLast? with
    | none => .buildError "Unknown build error"
    | some ev =>
      match ev.stream with
      | some s =>
        match findMarker s with
        | some id => .ok id
        | none => .nameError
      | none => .nameError

/-- C8: evaluating `build_image` at the failing inputs.  A final event with
no success marker — whether it lacks a `stream` field entirely or its stream
text merely fails to match — makes the code raise `UnboundLocalError` on
`if image_id:` (the variable was never assigned), NOT the intended
`BuildError`; the empty sequence and the genuine-marker and error-event
cases behave as specified. -/
theorem build_image_unbound_local :
    build_image [⟨none, some "done", none⟩] = BuildOutcome.nameError ∧
    build_image [⟨some "Step 1/2 : FROM x", none, none⟩] = BuildOutcome.nameError ∧
    build_image [] = BuildOutcome.buildError "Unknown build error" ∧
    build_image [⟨some "Successfully built abc123\n", none, none⟩] =
      BuildOutcome.ok "abc123" ∧
    build_image [⟨some "x", none, some "boom"⟩] = BuildOutcome.buildError "boom" := by
  refine ⟨rfl, rfl, rfl, by decide, rfl⟩
